import Mathlib

/-!
Shallow embedding of the Xcalibyte RISC-V peephole pass
(`llvm/lib/Target/RISCV/XcalPasses/XcalPeephole.cpp`).

Machine IR is modelled concretely: a function is a list of basic blocks, a
block is a list of instructions together with its (collaborator-maintained)
predecessor index list, and an instruction is an opcode with an operand list
and an opaque debug-location tag.  Out-parameters of the C++ recognizers are
threaded explicitly (initial value in, final value out), so that frame
conditions on failure outcomes are visible in the embedding.  Undefined
behaviour of the C++ (out-of-bounds `getOperand`, `getReg`/`getImm`/`getMBB`
on an operand of the wrong kind, dereferencing a dangling or null block
pointer) is modelled by `Option`/`Except` failure values, never by defaults.
-/

namespace XcalPeephole

/-- Operand of a machine instruction: register, immediate, basic-block
reference (by layout index), or some other operand kind. -/
inductive MOperand where
  | reg (r : Nat)
  | imm (v : Int)
  | mbb (b : Nat)
  | other
deriving DecidableEq

/-- Opcodes relevant to the pass.  `BLT` stands for a conditional branch the
recognizer does not handle, `OTHER` for any remaining opcode. -/
inductive Opcode where
  | C_LI | ADDI | COPY
  | BEQ | BNE | C_BEQZ | C_BNEZ | BLT
  | PseudoBR | PseudoRET
  | OTHER
deriving DecidableEq

/-- A machine instruction: opcode, ordered operand list, opaque debug tag. -/
structure MachineInstr where
  opcode : Opcode
  operands : List MOperand
  debugLoc : Nat
deriving DecidableEq

/-- A basic block: its ordered instruction list and the indices of its
predecessor blocks (CFG back-edges, maintained by the surrounding pipeline). -/
structure MachineBasicBlock where
  insts : List MachineInstr
  preds : List Nat
deriving DecidableEq

/-- A machine function is its blocks in layout order. -/
abbrev MF := List MachineBasicBlock

/-- Modelled from the spec: instruction classification flags supplied by the
target description (not part of the sources under review).  The conditional
branches are the four recognized forms plus other conditional branches. -/
def Opcode.isCondBranch : Opcode → Bool
  | .BEQ | .BNE | .C_BEQZ | .C_BNEZ | .BLT => true
  | _ => false

/-- Modelled from the spec: an unconditional branch opcode. -/
def Opcode.isUncondBranch : Opcode → Bool
  | .PseudoBR => true
  | _ => false

/-- Modelled from the spec: a return opcode. -/
def Opcode.isReturn : Opcode → Bool
  | .PseudoRET => true
  | _ => false

/-- Modelled from the spec: an unconditional transfer of control (used to
decide whether a block has a fallthrough successor). -/
def Opcode.isUncondTransfer (op : Opcode) : Bool :=
  op.isUncondBranch || op.isReturn

def MOperand.isReg : MOperand → Bool
  | .reg _ => true
  | _ => false

def MOperand.isImm : MOperand → Bool
  | .imm _ => true
  | _ => false

/-- The architectural zero register `x0` (its numeric id is irrelevant). -/
def X0 : Nat := 0

/-- `XcalPeephole::isRegX0`: the operand is the register `x0`. -/
def isRegX0 : MOperand → Bool
  | .reg r => decide (r = X0)
  | _ => false

/-- Modelled from the spec: `MachineBasicBlock::getFallThrough` is not part of
the sources under review.  Per the data model, a block's fallthrough
successor, when present, is the next block in layout order, and it is absent
when there is no next block or the block ends in an unconditional transfer. -/
def getFallThrough (f : MF) (i : Nat) : Option Nat :=
  match f[i]?, f[i+1]? with
  | some b, some _ =>
    match b.insts.getLast? with
    | some l => if l.opcode.isUncondTransfer then none else some (i+1)
    | none => some (i+1)
  | _, _ => none

/-- `XcalPeephole::getLIOperands`.  The C++ out-parameters `Reg`/`Imm` are
threaded explicitly: `reg0`/`imm0` are their values before the call, the
returned pair their values after it.  `none` models undefined behaviour
(out-of-bounds `getOperand`, or `getReg`/`getImm` on the wrong operand kind).
Note that the `ADDI` case writes `Reg` before checking the operand patterns,
so a non-matching `ADDI` returns `false` with `Reg` already overwritten. -/
def getLIOperands (I : MachineInstr) (reg0 : Nat) (imm0 : Int) :
    Option (Bool × Nat × Int) :=
  if I.opcode = .C_LI then
    match I.operands[0]?, I.operands[1]? with
    | some (MOperand.reg r), some (MOperand.imm v) => some (true, r, v)
    | _, _ => none
  else if I.opcode = .ADDI then
    match I.operands[1]?, I.operands[2]?, I.operands[0]? with
    | some lhs, some rhs, some (MOperand.reg r) =>
      if isRegX0 lhs && rhs.isImm then
        match rhs with
        | .imm v => some (true, r, v)
        | _ => some (false, r, imm0)
      else if lhs.isImm && isRegX0 rhs then
        match lhs with
        | .imm v => some (true, r, v)
        | _ => some (false, r, imm0)
      else some (false, r, imm0)
    | _, _, _ => none
  else if I.opcode = .COPY then
    match I.operands[1]? with
    | some src =>
      if isRegX0 src then
        match I.operands[0]? with
        | some (MOperand.reg r) => some (true, r, 0)
        | _ => none
      else some (false, reg0, imm0)
    | none => none
  else some (false, reg0, imm0)

/-- Operand-pattern extraction shared by the `BEQ`/`BNE` case of
`getCondBranchOperands` (lines 108-116 of the C++): one operand must be a
register and the other an immediate or `x0`, in either order. -/
def condExtract (lhs rhs : MOperand) (reg0 : Nat) (imm0 : Int) :
    Option (Bool × Nat × Int) :=
  if lhs.isReg && (rhs.isImm || isRegX0 rhs) then
    match lhs with
    | .reg r =>
      some (true, r, if isRegX0 rhs then 0 else match rhs with
        | .imm v => v
        | _ => 0)
    | _ => none
  else if (lhs.isImm || isRegX0 lhs) && rhs.isReg then
    match rhs with
    | .reg r =>
      some (true, r, if isRegX0 lhs then 0 else match lhs with
        | .imm v => v
        | _ => 0)
    | _ => none
  else some (false, reg0, imm0)

/-- `XcalPeephole::getCondBranchOperands`.  `parent` is the layout index of
the block holding `I` (the C++ reads it through `Inst.getParent()`), and
`wantTarget` models whether the caller passed a non-null `Target` pointer.
The out-parameters are threaded explicitly: `reg0`/`imm0`/`tgt0` are the
values of `Reg`/`Imm`/`*Target` before the call, and the returned quadruple
is (returned bool, `Reg`, `Imm`, `*Target`) after it, where the `*Target`
component is a block pointer (`none` models the null pointer).  The result
`none` models undefined behaviour.  Note that for `BEQ`/`BNE` the target is
written before the operand patterns are checked, so it is written even when
the function returns `false`. -/
def getCondBranchOperands (f : MF) (parent : Nat) (I : MachineInstr)
    (wantTarget : Bool) (reg0 : Nat) (imm0 : Int) (tgt0 : Option Nat) :
    Option (Bool × Nat × Int × Option Nat) :=
  if I.opcode = .BEQ ∨ I.opcode = .BNE then
    match I.operands[0]?, I.operands[1]? with
    | some lhs, some rhs =>
      let tgtW : Option (Option Nat) :=
        if wantTarget then
          if I.opcode = .BEQ then
            match I.operands[2]? with
            | some (MOperand.mbb t) => some (some t)
            | _ => none
          else some (getFallThrough f parent)
        else some tgt0
      match tgtW with
      | none => none
      | some tgt1 =>
        match condExtract lhs rhs reg0 imm0 with
        | some (b, r, m) => some (b, r, m, tgt1)
        | none => none
    | _, _ => none
  else if I.opcode = .C_BEQZ ∨ I.opcode = .C_BNEZ then
    match I.operands[0]? with
    | some (MOperand.reg r) =>
      if wantTarget then
        if I.opcode = .C_BEQZ then
          match I.operands[2]? with
          | some (MOperand.mbb t) => some (true, r, 0, some t)
          | _ => none
        else some (true, r, 0, getFallThrough f parent)
      else some (true, r, 0, tgt0)
    | _ => none
  else some (false, reg0, imm0, tgt0)

/-- Failure values of the transforms: `nullTarget` models `Target->size()`
with `Target == nullptr`, `ub` every other undefined behaviour. -/
inductive TBErr where
  | nullTarget
  | ub
deriving DecidableEq

/-- A freshly built `PseudoRET` carrying the given debug-location tag
(`BuildMI(&MBB, LastInst.getDebugLoc(), TII->get(RISCV::PseudoRET))`). -/
def mkRet (dl : Nat) : MachineInstr := ⟨.PseudoRET, [], dl⟩

/-- `XcalPeephole::eliminateJumpToExitBlock` (Transform A), acting on block
`idx` of `f`.  Returns the `Changed` flag together with the updated
function. -/
def eliminateJumpToExitBlock (f : MF) (idx : Nat) :
    Except TBErr (Bool × MF) :=
  match f[idx]? with
  | none => .error .ub
  | some mbb =>
    match mbb.insts.getLast? with
    | none => .ok (false, f)
    | some last =>
      if last.opcode.isUncondBranch then
        match last.operands[0]? with
        | some (MOperand.mbb t) =>
          match f[t]? with
          | none => .error .ub
          | some tb =>
            match tb.insts with
            | [r] =>
              if r.opcode.isReturn then
                .ok (true, f.set idx
                  { mbb with
                    insts := mbb.insts.dropLast ++ [mkRet last.debugLoc] })
              else .ok (false, f)
            | _ => .ok (false, f)
        | _ => .error .ub
      else .ok (false, f)

/-- The predecessor loop of `eliminateAssignAfterBranchTest` (lines 199-222
of the C++).  `some true`/`some false` is the final value of `Removable`;
`none` models undefined behaviour inside the loop.  An empty predecessor is
skipped (`if (Pred->empty()) continue;`). -/
def checkPreds (f : MF) (dst : Nat) (imm : Int) : List Nat → Option Bool
  | [] => some true
  | p :: rest =>
    match f[p]? with
    | none => none
    | some pb =>
      match pb.insts.getLast? with
      | none => checkPreds f dst imm rest
      | some pl =>
        if pl.opcode.isCondBranch then
          match getCondBranchOperands f p pl false 0 0 none with
          | none => none
          | some (false, _, _, _) => some false
          | some (true, preg, pimm, _) =>
            if preg = dst ∧ pimm = imm then checkPreds f dst imm rest
            else some false
        else some false

/-- `XcalPeephole::eliminateAssignAfterBranchTest` (Transform B), acting on
block `idx` of `f`.  Returns the `Changed` flag together with the updated
function; `.error .nullTarget` models the unchecked dereference
`Target->size()` when the recognizer resolved a null fallthrough. -/
def eliminateAssignAfterBranchTest (f : MF) (idx : Nat) :
    Except TBErr (Bool × MF) :=
  match f[idx]? with
  | none => .error .ub
  | some mbb =>
    match mbb.insts.getLast? with
    | none => .ok (false, f)
    | some last =>
      if last.opcode.isCondBranch then
        match getCondBranchOperands f idx last true 0 0 none with
        | none => .error .ub
        | some (false, _, _, _) => .ok (false, f)
        | some (true, reg, imm, tgtPtr) =>
          match tgtPtr with
          | none => .error .nullTarget
          | some t =>
            match f[t]? with
            | none => .error .ub
            | some tb =>
              match tb.insts with
              | [] => .ok (false, f)
              | head :: rest =>
                match getLIOperands head 0 0 with
                | none => .error .ub
                | some (false, _, _) => .ok (false, f)
                | some (true, dst, liImm) =>
                  if dst = reg ∧ liImm = imm then
                    match checkPreds f dst imm tb.preds with
                    | none => .error .ub
                    | some true =>
                      .ok (true, f.set t { tb with insts := rest })
                    | some false => .ok (false, f)
                  else .ok (false, f)
      else .ok (false, f)

/-- One iteration of the driver loop: `Changed = eliminateJumpToExitBlock(MBB);
Changed |= eliminateAssignAfterBranchTest(MBB);`. -/
def stepBlock (f : MF) (i : Nat) : Except TBErr (Bool × MF) :=
  match eliminateJumpToExitBlock f i with
  | .error e => .error e
  | .ok (c1, f1) =>
    match eliminateAssignAfterBranchTest f1 i with
    | .error e => .error e
    | .ok (c2, f2) => .ok (c1 || c2, f2)

/-- The driver loop over the given block indices.  Note that each iteration
*replaces* the accumulated flag `c` with its own flag, mirroring
`Changed = ...; Changed |= ...;` inside `for (auto &MBB : MF)`. -/
def runAux (f : MF) (c : Bool) : List Nat → Except TBErr (Bool × MF)
  | [] => .ok (c, f)
  | i :: rest =>
    match stepBlock f i with
    | .error e => .error e
    | .ok (ci, fi) => runAux fi ci rest

/-- `XcalPeephole::runOnMachineFunction`: both transforms on every block in
layout order. -/
def runOnMachineFunction (f : MF) : Except TBErr (Bool × MF) :=
  runAux f false (List.range f.length)

/-- The per-predecessor condition actually enforced by the predecessor loop
of Transform B: the predecessor exists and is either empty (skipped) or ends
in a conditional branch accepted by the recognizer with exactly the pair
`(dst, imm)`. -/
def predOk (f : MF) (dst : Nat) (imm : Int) (p : Nat) : Bool :=
  match f[p]? with
  | none => false
  | some pb =>
    match pb.insts.getLast? with
    | none => true
    | some pl =>
      if pl.opcode.isCondBranch then
        match getCondBranchOperands f p pl false 0 0 none with
        | some (true, preg, pimm, _) => decide (preg = dst ∧ pimm = imm)
        | _ => false
      else false

/-! ## Theorems -/

/-- Claim C4 (confirmed): the constant-assignment recognizer yields the same
match `(R, C)` on all three syntactic forms — `C_LI R, C`; `ADDI R, x0, C`
and `ADDI R, C, x0`; and, for `C = 0`, `COPY R, x0` — and every other
instruction kind is not recognized. -/
theorem li_forms_equiv (R : Nat) (C : Int) (d1 d2 d3 d4 : Nat)
    (reg0 : Nat) (imm0 : Int) :
    getLIOperands ⟨.C_LI, [.reg R, .imm C], d1⟩ reg0 imm0 = some (true, R, C)
    ∧ getLIOperands ⟨.ADDI, [.reg R, .reg X0, .imm C], d2⟩ reg0 imm0
        = some (true, R, C)
    ∧ getLIOperands ⟨.ADDI, [.reg R, .imm C, .reg X0], d3⟩ reg0 imm0
        = some (true, R, C)
    ∧ getLIOperands ⟨.COPY, [.reg R, .reg X0], d4⟩ reg0 imm0 = some (true, R, 0)
    ∧ ∀ I : MachineInstr, I.opcode ≠ .C_LI → I.opcode ≠ .ADDI →
        I.opcode ≠ .COPY → getLIOperands I reg0 imm0 = some (false, reg0, imm0) := by
  refine ⟨rfl, ?_, ?_, rfl, ?_⟩
  · simp [getLIOperands, isRegX0, MOperand.isImm]
  · simp [getLIOperands, isRegX0, MOperand.isImm]
  · intro I h1 h2 h3
    simp [getLIOperands, h1, h2, h3]

/-- Witness for `li_forms_equiv` at concrete inputs. -/
theorem li_forms_equiv_witness :
    getLIOperands ⟨.C_LI, [.reg 3, .imm 9], 0⟩ 4 7 = some (true, 3, 9)
    ∧ getLIOperands ⟨.BEQ, [.reg 1, .imm 2, .mbb 0], 0⟩ 4 7 = some (false, 4, 7) :=
  ⟨(li_forms_equiv 3 9 0 0 0 0 4 7).1,
   (li_forms_equiv 3 9 0 0 0 0 4 7).2.2.2.2 ⟨.BEQ, [.reg 1, .imm 2, .mbb 0], 0⟩
     (by decide) (by decide) (by decide)⟩

/-- Claim C7 (corrected), counterexample: on the non-matching
`ADDI x5, x1, x2` the recognizer returns "no match" but has already
overwritten the `Reg` out-parameter (here from `0` to `5`), so the
out-parameters are not all left unmodified on the failure outcome. -/
theorem getLIOperands_writes_reg_on_fail :
    getLIOperands ⟨.ADDI, [.reg 5, .reg 1, .reg 2], 0⟩ 0 7 = some (false, 5, 7)
    ∧ (5 : Nat) ≠ 0 := by
  exact ⟨rfl, by decide⟩

/-- Claim C7 (corrected), amended: on the failure outcome the `Imm`
out-parameter is left unmodified, and the `Reg` out-parameter is left
unmodified except for an `ADDI` that fails the operand-pattern check, where
`Reg` has been set to the `ADDI` destination register; the result is still
exactly one of match / no match. -/
theorem getLIOperands_fail_frame (I : MachineInstr) (reg0 r : Nat)
    (imm0 m : Int) (h : getLIOperands I reg0 imm0 = some (false, r, m)) :
    m = imm0 ∧ (r = reg0 ∨ (I.opcode = .ADDI ∧ I.operands[0]? = some (.reg r))) := by
  unfold getLIOperands at h
  repeat' split at h
  all_goals simp_all

/-- Witness for `getLIOperands_fail_frame` at a concrete failing `ADDI`. -/
theorem getLIOperands_fail_frame_witness :
    (7 : Int) = 7 ∧ ((5 : Nat) = 0 ∨ ((Opcode.ADDI = Opcode.ADDI) ∧
      ([MOperand.reg 5, .reg 1, .reg 2][0]? = some (.reg 5)))) :=
  getLIOperands_fail_frame ⟨.ADDI, [.reg 5, .reg 1, .reg 2], 0⟩ 0 5 7 7 rfl

/-- Claim C9 (confirmed): when asked for the target of a `C_BEQZ`, the
recognizer reads operand index 2 as the target block.  On the two-operand
encoding `(register, target at index 1)` this access is out of bounds
(undefined behaviour, modelled as `none`); it is well defined when the
instruction carries a register at index 0 and a block operand at index 2. -/
theorem cbeqz_operand2_access (f : MF) (parent : Nat) (I : MachineInstr)
    (r t : Nat) (reg0 : Nat) (imm0 : Int) (tgt0 : Option Nat)
    (hop : I.opcode = .C_BEQZ) :
    (I.operands = [.reg r, .mbb t] →
       getCondBranchOperands f parent I true reg0 imm0 tgt0 = none)
    ∧ (I.operands[0]? = some (.reg r) → I.operands[2]? = some (.mbb t) →
       getCondBranchOperands f parent I true reg0 imm0 tgt0
         = some (true, r, 0, some t)) := by
  constructor
  · intro hops
    simp [getCondBranchOperands, hop, hops]
  · intro h0 h2
    simp [getCondBranchOperands, hop, h0, h2]

/-- Witness for `cbeqz_operand2_access`: the real two-operand `C_BEQZ`
encoding makes the access out of bounds, the three-operand shape is fine. -/
theorem cbeqz_operand2_access_witness :
    getCondBranchOperands [] 0 ⟨.C_BEQZ, [.reg 1, .mbb 2], 0⟩ true 0 0 none = none :=
  (cbeqz_operand2_access [] 0 ⟨.C_BEQZ, [.reg 1, .mbb 2], 0⟩ 1 2 0 0 none rfl).1 rfl

/-- Claim C10 (confirmed): on a `BEQ`/`BNE` rejected because neither operand
ordering is a (register, constant) pair, the requested target out-parameter
has nevertheless already been written with the resolved block — the explicit
target operand for `BEQ`, the fallthrough for `BNE` — independently of the
value `tgt0` it held before the call. -/
theorem beq_fail_writes_target (f : MF) (parent : Nat) (I : MachineInstr)
    (lhs rhs : MOperand) (t : Nat) (reg0 : Nat) (imm0 : Int) (tgt0 : Option Nat)
    (h0 : I.operands[0]? = some lhs) (h1 : I.operands[1]? = some rhs)
    (hf1 : (lhs.isReg && (rhs.isImm || isRegX0 rhs)) = false)
    (hf2 : ((lhs.isImm || isRegX0 lhs) && rhs.isReg) = false) :
    (I.opcode = .BEQ → I.operands[2]? = some (.mbb t) →
       getCondBranchOperands f parent I true reg0 imm0 tgt0
         = some (false, reg0, imm0, some t))
    ∧ (I.opcode = .BNE →
       getCondBranchOperands f parent I true reg0 imm0 tgt0
         = some (false, reg0, imm0, getFallThrough f parent)) := by
  constructor
  · intro hop h2
    simp [getCondBranchOperands, hop, h0, h1, h2, condExtract, hf1, hf2]
  · intro hop
    simp [getCondBranchOperands, hop, h0, h1, condExtract, hf1, hf2]

/-- Witness for `beq_fail_writes_target`: a `BEQ` with two immediate operands
is rejected, yet the target out-parameter went from null to block 3. -/
theorem beq_fail_writes_target_witness :
    getCondBranchOperands [] 0 ⟨.BEQ, [.imm 1, .imm 2, .mbb 3], 0⟩ true 4 6 none
      = some (false, 4, 6, some 3) :=
  (beq_fail_writes_target [] 0 ⟨.BEQ, [.imm 1, .imm 2, .mbb 3], 0⟩
    (.imm 1) (.imm 2) 3 4 6 none rfl rfl (by decide) (by decide)).1 rfl rfl

/-- Claim C3 (confirmed): when the recognizer accepts a branch with the
target requested, the "equal"-outcome block is the operand read at index 2
for the equality forms `BEQ`/`C_BEQZ` and the parent block's fallthrough
successor for the inequality forms `BNE`/`C_BNEZ`; for the compare-zero
short forms the extracted constant is `0`. -/
theorem branch_polarity (f : MF) (parent : Nat) (I : MachineInstr)
    (reg0 : Nat) (imm0 : Int) (tgt0 : Option Nat) (r : Nat) (m : Int)
    (tw : Option Nat)
    (hacc : getCondBranchOperands f parent I true reg0 imm0 tgt0
      = some (true, r, m, tw)) :
    ((I.opcode = .BEQ ∨ I.opcode = .C_BEQZ) →
       ∃ t, I.operands[2]? = some (.mbb t) ∧ tw = some t)
    ∧ ((I.opcode = .BNE ∨ I.opcode = .C_BNEZ) → tw = getFallThrough f parent)
    ∧ ((I.opcode = .C_BEQZ ∨ I.opcode = .C_BNEZ) → m = 0) := by
  unfold getCondBranchOperands at hacc
  repeat' split at hacc
  all_goals simp_all

/-- Witness for `branch_polarity` on concrete `BEQ` and `BNE` instances. -/
theorem branch_polarity_witness :
    ((∃ t, ([MOperand.reg 1, .imm 2, .mbb 0][2]? = some (.mbb t))
        ∧ (some 0 : Option Nat) = some t)
     ∧ ((some 1 : Option Nat)
        = getFallThrough [⟨[], []⟩, ⟨[], []⟩] 0)) :=
  ⟨(branch_polarity [⟨[], []⟩, ⟨[], []⟩] 0 ⟨.BEQ, [.reg 1, .imm 2, .mbb 0], 0⟩
      0 0 none 1 2 (some 0) rfl).1 (Or.inl rfl),
   (branch_polarity [⟨[], []⟩, ⟨[], []⟩] 0 ⟨.BNE, [.reg 1, .imm 2, .mbb 0], 0⟩
      0 0 none 1 2 (some 1) rfl).2.1 (Or.inl rfl)⟩

/-- Claim C6 (confirmed): whenever Transform B reports "unchanged" — for any
of its rejection reasons — the function is returned exactly as it was given:
the destructive erase happens only after the full predecessor proof
succeeds. -/
theorem transformB_unchanged_noop (f : MF) (idx : Nat) (f' : MF)
    (h : eliminateAssignAfterBranchTest f idx = .ok (false, f')) : f' = f := by
  unfold eliminateAssignAfterBranchTest at h
  repeat' split at h
  all_goals simp_all

/-- Witness for `transformB_unchanged_noop` on a block whose terminator is a
return, which Transform B rejects. -/
theorem transformB_unchanged_noop_witness :
    ([⟨[⟨.PseudoRET, [], 0⟩], []⟩] : MF) = [⟨[⟨.PseudoRET, [], 0⟩], []⟩] :=
  transformB_unchanged_noop [⟨[⟨.PseudoRET, [], 0⟩], []⟩] 0 _ rfl

/-- An unconditional-branch opcode is never a return opcode. -/
theorem isUncondBranch_not_isReturn (op : Opcode)
    (h : op.isUncondBranch = true) : op.isReturn = false := by
  cases op <;> simp_all [Opcode.isUncondBranch, Opcode.isReturn]

/-- Claim C2 (confirmed): for a non-empty block ending in an unconditional
branch to target `t`: if the target holds exactly one instruction and it is
a return, Transform A replaces the branch by a fresh return carrying the
branch's debug tag, leaves the target untouched and reports changed; if the
target has more than one instruction, or its only instruction is not a
return, the block is unchanged and the transform reports unchanged. -/
theorem transformA_spec (f : MF) (idx : Nat) (mbb : MachineBasicBlock)
    (last : MachineInstr) (t : Nat) (tb : MachineBasicBlock)
    (hmb : f[idx]? = some mbb)
    (hlast : mbb.insts.getLast? = some last)
    (hbr : last.opcode.isUncondBranch = true)
    (hop : last.operands[0]? = some (.mbb t))
    (htb : f[t]? = some tb) :
    ((∃ r, tb.insts = [r] ∧ r.opcode.isReturn = true) →
       eliminateJumpToExitBlock f idx = .ok (true, f.set idx
           { mbb with insts := mbb.insts.dropLast ++ [mkRet last.debugLoc] })
       ∧ (f.set idx
           { mbb with insts := mbb.insts.dropLast ++ [mkRet last.debugLoc] })[t]?
           = some tb)
    ∧ ((2 ≤ tb.insts.length ∨ ∃ r, tb.insts = [r] ∧ r.opcode.isReturn = false) →
       eliminateJumpToExitBlock f idx = .ok (false, f)) := by
  constructor
  · rintro ⟨r, hr, hret⟩
    have hne : t ≠ idx := by
      intro he
      subst he
      rw [hmb] at htb
      injection htb with htb
      subst htb
      rw [hr] at hlast
      have hrl : r = last := by simpa using hlast
      rw [hrl, isUncondBranch_not_isReturn last.opcode hbr] at hret
      simp at hret
    constructor
    · simp [eliminateJumpToExitBlock, hmb, hlast, hbr, hop, htb, hr, hret]
    · rw [List.getElem?_set_ne (Ne.symm hne)]
      exact htb
  · intro hneg
    rcases hneg with hlen | ⟨r, hr, hret⟩
    · rcases hins : tb.insts with _ | ⟨a, _ | ⟨b, l⟩⟩
      · rw [hins] at hlen
        simp at hlen
      · rw [hins] at hlen
        simp at hlen
      · simp [eliminateJumpToExitBlock, hmb, hlast, hbr, hop, htb, hins]
    · simp [eliminateJumpToExitBlock, hmb, hlast, hbr, hop, htb, hr, hret]

/-- Witness for `transformA_spec`: both the firing case and a rejected
two-instruction target. -/
theorem transformA_spec_witness :
    (eliminateJumpToExitBlock
        [⟨[⟨.C_LI, [.reg 2, .imm 0], 1⟩, ⟨.PseudoBR, [.mbb 1], 3⟩], []⟩,
         ⟨[⟨.PseudoRET, [], 0⟩], [0]⟩] 0
      = .ok (true,
        [⟨[⟨.C_LI, [.reg 2, .imm 0], 1⟩, ⟨.PseudoRET, [], 3⟩], []⟩,
         ⟨[⟨.PseudoRET, [], 0⟩], [0]⟩]))
    ∧ (eliminateJumpToExitBlock
        [⟨[⟨.PseudoBR, [.mbb 1], 3⟩], []⟩,
         ⟨[⟨.C_LI, [.reg 2, .imm 0], 0⟩, ⟨.PseudoRET, [], 0⟩], [0]⟩] 0
      = .ok (false,
        [⟨[⟨.PseudoBR, [.mbb 1], 3⟩], []⟩,
         ⟨[⟨.C_LI, [.reg 2, .imm 0], 0⟩, ⟨.PseudoRET, [], 0⟩], [0]⟩])) :=
  ⟨((transformA_spec
      [⟨[⟨.C_LI, [.reg 2, .imm 0], 1⟩, ⟨.PseudoBR, [.mbb 1], 3⟩], []⟩,
       ⟨[⟨.PseudoRET, [], 0⟩], [0]⟩] 0
      ⟨[⟨.C_LI, [.reg 2, .imm 0], 1⟩, ⟨.PseudoBR, [.mbb 1], 3⟩], []⟩
      ⟨.PseudoBR, [.mbb 1], 3⟩ 1 ⟨[⟨.PseudoRET, [], 0⟩], [0]⟩
      rfl rfl rfl rfl rfl).1 ⟨⟨.PseudoRET, [], 0⟩, rfl, rfl⟩).1,
   (transformA_spec
      [⟨[⟨.PseudoBR, [.mbb 1], 3⟩], []⟩,
       ⟨[⟨.C_LI, [.reg 2, .imm 0], 0⟩, ⟨.PseudoRET, [], 0⟩], [0]⟩] 0
      ⟨[⟨.PseudoBR, [.mbb 1], 3⟩], []⟩
      ⟨.PseudoBR, [.mbb 1], 3⟩ 1
      ⟨[⟨.C_LI, [.reg 2, .imm 0], 0⟩, ⟨.PseudoRET, [], 0⟩], [0]⟩
      rfl rfl rfl rfl rfl).2 (Or.inl (by decide))⟩

/-- The predecessor loop succeeds exactly when every predecessor satisfies
`predOk` (exists, and is empty or ends in a recognized conditional branch
extracting exactly `(dst, imm)`). -/
theorem checkPreds_eq_true_iff (f : MF) (dst : Nat) (imm : Int)
    (ps : List Nat) :
    checkPreds f dst imm ps = some true ↔ ∀ p ∈ ps, predOk f dst imm p = true := by
  induction ps with
  | nil => simp [checkPreds]
  | cons p rest ih =>
    cases hfp : f[p]? with
    | none => simp [checkPreds, predOk, hfp]
    | some pb =>
      cases hlast : pb.insts.getLast? with
      | none => simp [checkPreds, predOk, hfp, hlast, ih]
      | some pl =>
        cases hcb : pl.opcode.isCondBranch with
        | false => simp [checkPreds, predOk, hfp, hlast, hcb]
        | true =>
          cases hrec : getCondBranchOperands f p pl false 0 0 none with
          | none => simp [checkPreds, predOk, hfp, hlast, hcb, hrec]
          | some q =>
            obtain ⟨b, preg, pimm, tw⟩ := q
            cases b with
            | false => simp [checkPreds, predOk, hfp, hlast, hcb, hrec]
            | true =>
              by_cases hpair : preg = dst ∧ pimm = imm
              · simp [checkPreds, predOk, hfp, hlast, hcb, hrec, hpair, ih]
              · simp [checkPreds, predOk, hfp, hlast, hcb, hrec, hpair]

/-- Claim C1 (corrected), counterexample: in the three-block function below,
block 2 has predecessors `[0, 1]`, block 1 is empty, yet Transform B on
block 0 still erases block 2's leading `C_LI x1, 5` — so a predecessor being
empty does not prevent the change, contrary to the claim. -/
theorem transformB_empty_pred_removal :
    eliminateAssignAfterBranchTest
        [⟨[⟨.BEQ, [.reg 1, .imm 5, .mbb 2], 0⟩], []⟩,
         ⟨[], []⟩,
         ⟨[⟨.C_LI, [.reg 1, .imm 5], 0⟩, ⟨.PseudoRET, [], 0⟩], [0, 1]⟩] 0
      = .ok (true,
        [⟨[⟨.BEQ, [.reg 1, .imm 5, .mbb 2], 0⟩], []⟩,
         ⟨[], []⟩,
         ⟨[⟨.PseudoRET, [], 0⟩], [0, 1]⟩])
    ∧ ([⟨[⟨.BEQ, [.reg 1, .imm 5, .mbb 2], 0⟩], []⟩,
        ⟨[], []⟩,
        ⟨[⟨.C_LI, [.reg 1, .imm 5], 0⟩, ⟨.PseudoRET, [], 0⟩], [0, 1]⟩]
          : MF)[1]? = some ⟨[], []⟩ :=
  ⟨rfl, rfl⟩

/-- Claim C1 (corrected), amended: given a block whose recognized conditional
terminator resolves `(reg, imm)` with "equal"-outcome block `t`, Transform B
erases `t`'s leading instruction if and only if that instruction is a
recognized constant assignment of exactly `(reg, imm)` and every predecessor
of `t` is either empty (such predecessors are skipped, not rejected) or ends
in a conditional branch the recognizer accepts with exactly the pair
`(reg, imm)`. -/
theorem transformB_remove_iff (f : MF) (idx : Nat) (mbb : MachineBasicBlock)
    (last : MachineInstr) (reg : Nat) (imm : Int) (t : Nat)
    (tb : MachineBasicBlock) (head : MachineInstr) (rest : List MachineInstr)
    (hmb : f[idx]? = some mbb)
    (hlast : mbb.insts.getLast? = some last)
    (hcb : last.opcode.isCondBranch = true)
    (hrec : getCondBranchOperands f idx last true 0 0 none
      = some (true, reg, imm, some t))
    (htb : f[t]? = some tb)
    (hne : tb.insts = head :: rest) :
    eliminateAssignAfterBranchTest f idx
        = .ok (true, f.set t { tb with insts := rest })
    ↔ (getLIOperands head 0 0 = some (true, reg, imm)
       ∧ ∀ p ∈ tb.preds, predOk f reg imm p = true) := by
  simp only [eliminateAssignAfterBranchTest, hmb, hlast, hcb, hrec, htb, hne,
    if_true]
  cases hli : getLIOperands head 0 0 with
  | none => simp
  | some q =>
    obtain ⟨b, dst, c⟩ := q
    cases b with
    | false => simp
    | true =>
      by_cases hguard : dst = reg ∧ c = imm
      · obtain ⟨hd, hc⟩ := hguard
        subst hd
        subst hc
        cases hcp : checkPreds f dst c tb.preds with
        | none =>
          have hnall : ¬ ∀ p ∈ tb.preds, predOk f dst c p = true := by
            intro hall
            rw [← checkPreds_eq_true_iff f dst c tb.preds, hcp] at hall
            simp at hall
          simp [hcp, hnall]
        | some removable =>
          cases removable with
          | true =>
            have hall := (checkPreds_eq_true_iff f dst c tb.preds).mp hcp
            simp [hcp]
            exact hall
          | false =>
            have hnall : ¬ ∀ p ∈ tb.preds, predOk f dst c p = true := by
              intro hall
              rw [← checkPreds_eq_true_iff f dst c tb.preds, hcp] at hall
              simp at hall
            simp [hcp, hnall]
      · simp only [ne_eq]
        rw [if_neg hguard]
        constructor
        · intro hcontra
          simp at hcontra
        · rintro ⟨hfst, -⟩
          injection hfst with hfst
          simp only [Prod.mk.injEq] at hfst
          exact absurd ⟨hfst.2.1, hfst.2.2⟩ hguard

/-- Witness for `transformB_remove_iff`: a two-block function whose single
predecessor proof succeeds, so the leading assignment is removed. -/
theorem transformB_remove_iff_witness :
    eliminateAssignAfterBranchTest
        [⟨[⟨.BEQ, [.reg 1, .imm 5, .mbb 1], 0⟩], []⟩,
         ⟨[⟨.C_LI, [.reg 1, .imm 5], 0⟩, ⟨.PseudoRET, [], 0⟩], [0]⟩] 0
      = .ok (true,
        [⟨[⟨.BEQ, [.reg 1, .imm 5, .mbb 1], 0⟩], []⟩,
         ⟨[⟨.PseudoRET, [], 0⟩], [0]⟩]) :=
  (transformB_remove_iff
      [⟨[⟨.BEQ, [.reg 1, .imm 5, .mbb 1], 0⟩], []⟩,
       ⟨[⟨.C_LI, [.reg 1, .imm 5], 0⟩, ⟨.PseudoRET, [], 0⟩], [0]⟩] 0
      ⟨[⟨.BEQ, [.reg 1, .imm 5, .mbb 1], 0⟩], []⟩
      ⟨.BEQ, [.reg 1, .imm 5, .mbb 1], 0⟩ 1 5 1
      ⟨[⟨.C_LI, [.reg 1, .imm 5], 0⟩, ⟨.PseudoRET, [], 0⟩], [0]⟩
      ⟨.C_LI, [.reg 1, .imm 5], 0⟩ [⟨.PseudoRET, [], 0⟩]
      rfl rfl rfl rfl rfl rfl).mpr ⟨rfl, by decide⟩

/-- If the recognizer accepts with a requested target and writes a null
target pointer, the branch was an inequality form and the parent block has
no fallthrough successor. -/
theorem cond_accepted_target_none (f : MF) (parent : Nat) (I : MachineInstr)
    (r : Nat) (m : Int)
    (h : getCondBranchOperands f parent I true 0 0 none
      = some (true, r, m, none)) :
    (I.opcode = .BNE ∨ I.opcode = .C_BNEZ) ∧ getFallThrough f parent = none := by
  unfold getCondBranchOperands at h
  repeat' split at h
  all_goals simp_all

/-- Claim C8 (confirmed): Transform B dereferences the recognizer's resolved
target block without a null check, and the resolved target of the inequality
forms is the fallthrough successor; hence, under the precondition that every
block ending in a recognized conditional branch has a fallthrough successor,
the null-target dereference of the embedding is unreachable. -/
theorem transformB_no_null_deref (f : MF) (idx : Nat)
    (hpre : ∀ i b l, f[i]? = some b → b.insts.getLast? = some l →
        (l.opcode = .BEQ ∨ l.opcode = .BNE ∨ l.opcode = .C_BEQZ ∨
         l.opcode = .C_BNEZ) → (getFallThrough f i).isSome = true) :
    eliminateAssignAfterBranchTest f idx ≠ .error .nullTarget := by
  intro h
  unfold eliminateAssignAfterBranchTest at h
  repeat' split at h
  all_goals try simp_all
  rename_i x2 tb heq2 x1 lastI heq1 hcb x preg pimm tgtPtr hrec
  obtain ⟨hop, hft⟩ := cond_accepted_target_none f idx lastI preg pimm hrec
  have hs := hpre idx tb lastI heq2 heq1
    (by rcases hop with h' | h' <;> simp [h'])
  rw [hft] at hs
  simp at hs

/-- Witness for `transformB_no_null_deref` on a single-block function whose
terminator is not a recognized branch, so the precondition holds vacuously. -/
theorem transformB_no_null_deref_witness :
    eliminateAssignAfterBranchTest [⟨[⟨.OTHER, [], 0⟩], []⟩] 0
      ≠ .error .nullTarget :=
  transformB_no_null_deref [⟨[⟨.OTHER, [], 0⟩], []⟩] 0 (by
    intro i b l hb hl hop
    match i with
    | 0 =>
      simp at hb
      rw [← hb] at hl
      simp at hl
      rw [← hl] at hop
      simp at hop
    | j + 1 => simp at hb)

/-- Claim C5 (code_bug): the driver's loop body is
`Changed = eliminateJumpToExitBlock(MBB); Changed |= eliminateAssignAfterBranchTest(MBB);`,
so the flag accumulated over earlier blocks is overwritten on every
iteration and the pass reports only whether the *last* block changed.  On
the two-block function below, Transform A rewrites block 0's jump into a
return (the function is modified), yet the pass returns `false`, violating
both the claim and the pass-driver contract of reporting any modification. -/
theorem driver_changed_flag_bug :
    runOnMachineFunction
        [⟨[⟨.PseudoBR, [.mbb 1], 7⟩], []⟩, ⟨[⟨.PseudoRET, [], 0⟩], [0]⟩]
      = .ok (false,
        [⟨[⟨.PseudoRET, [], 7⟩], []⟩, ⟨[⟨.PseudoRET, [], 0⟩], [0]⟩])
    ∧ ([⟨[⟨.PseudoRET, [], 7⟩], []⟩, ⟨[⟨.PseudoRET, [], 0⟩], [0]⟩] : MF)
        ≠ [⟨[⟨.PseudoBR, [.mbb 1], 7⟩], []⟩, ⟨[⟨.PseudoRET, [], 0⟩], [0]⟩] :=
  ⟨rfl, by decide⟩

end XcalPeephole
